import Mathlib

/-!
Verification of the RAG sample pipeline (install.ts and the app script).

The repository wires together a document loader, the langchain
MarkdownTextSplitter, Ollama embeddings, a Chroma vector store and an
Ollama language model.  Pure repository logic (file filtering, document
construction, prompt-slot assembly, query sequencing) is embedded
directly from the source; operations performed by the external libraries
(chunk splitting, the vector store's add and similarity search, the
embedding service) are modelled from the spec, as marked on each
definition.
-/

namespace RagSample

/-- Configuration constant CHUNK_SIZE from install.ts line 19. -/
def CHUNK_SIZE : Nat := 1000

/-- Configuration constant CHUNK_OVERLAP from install.ts line 20. -/
def CHUNK_OVERLAP : Nat := 200

/-- Retrieval k configured on the retriever (app script line 49). -/
def RETRIEVAL_K : Nat := 5

/-- Document as built by the loader (install.ts lines 51-57): page content
plus source and filePath metadata.  A filesystem path is modelled as its
list of components. -/
structure Document where
  pageContent : String
  source : String
  filePath : List String
deriving Repr, DecidableEq

/-- Models path.join of one directory and one file name: appends the file
name as a final path component. -/
def pathJoin (dir : List String) (file : String) : List String :=
  dir ++ [file]

/-- Models path.basename: the last component of a path. -/
def pathBasename (p : List String) : String :=
  p.getLastD ("")

/-- Embeds processMarkdownFiles, loading part (install.ts lines 39-58):
list the directory, keep the names ending in .md, join each with the
directory, read each file, and build one Document per file with source set
to the base name and filePath to the joined path.  The readFile parameter
stands for fs.readFileSync. -/
def processMarkdownFiles (dir : List String) (entries : List String)
    (readFile : List String → String) : List Document :=
  let files := (entries.filter (fun f => f.endsWith (".md"))).map (fun f => pathJoin dir f)
  files.map (fun file =>
    { pageContent := readFile file, source := pathBasename file, filePath := file })

/-- Modelled from the spec: the Chunker is the external langchain
MarkdownTextSplitter (install.ts lines 61-66), absent from src.  Per the
spec's Chunker contract it splits content into chunks of at most maxSize
characters, consecutive chunks sharing overlap characters, with the
invariant overlap < maxSize.  Structural recursion on a fuel argument. -/
def chunkAux (maxSize overlap : Nat) : Nat → List Char → List (List Char)
  | 0, s => [s]
  | fuel + 1, s =>
    if s.length ≤ maxSize then [s]
    else s.take maxSize :: chunkAux maxSize overlap fuel (s.drop (maxSize - overlap))

/-- Chunk one content with enough fuel for the whole input. -/
def chunkContent (maxSize overlap : Nat) (s : List Char) : List (List Char) :=
  chunkAux maxSize overlap s.length s

/-- Chunk a Document's content with the configured size and overlap. -/
def chunkDocument (d : Document) : List (List Char) :=
  chunkContent CHUNK_SIZE CHUNK_OVERLAP d.pageContent.data

/-- Concatenation of chunks with the overlapping portions removed: the
first chunk in full, every later chunk with its first overlap characters
dropped. -/
def reconstruct (overlap : Nat) : List (List Char) → List Char
  | [] => []
  | c :: cs => c ++ (cs.map (fun k => k.drop overlap)).flatten

/-- Vector store entry: identifier, embedding vector, chunk text, source
metadata (the tuple persisted per chunk). -/
structure Entry where
  id : Nat
  vector : List Int
  text : String
  source : String
deriving Repr, DecidableEq

/-- The Chroma collection: its entries plus the counter modelling the
library generating a fresh identifier for each added document. -/
structure Store where
  entries : List Entry
  nextId : Nat
deriving Repr, DecidableEq

/-- Modelled from the spec: the write path of the external Chroma adapter
used by createVectorStore (install.ts lines 77-84).  Chroma.fromDocuments
adds every chunk to the collection under a freshly generated identifier;
the spec's design notes record that the reference code has no
deterministic dedupe key, so each write appends one new entry per chunk.
The pairs are (chunk, embedding vector). -/
def addEntries (st : Store) (pairs : List (Document × List Int)) : Store :=
  { entries := st.entries ++ pairs.mapIdx (fun i p =>
      { id := st.nextId + i, vector := p.2, text := p.1.pageContent,
        source := p.1.source }),
    nextId := st.nextId + pairs.length }

/-- Write a chunk set with an infallible embedding function, as one
ingestion run does. -/
def writeChunks (embed : String → List Int) (st : Store)
    (chunks : List Document) : Store :=
  addEntries st (chunks.map (fun c => (c, embed c.pageContent)))

/-- Squared L2 distance between two vectors. -/
def l2sq (a b : List Int) : Int :=
  (List.zipWith (fun x y => (x - y) * (x - y)) a b).sum

/-- Similarity score of an entry against a query vector: negated squared
L2 distance, so larger means nearer.  The distance metric is the vector
store's L2 metric per the spec. -/
def score (q : List Int) (e : Entry) : Int :=
  - l2sq q e.vector

/-- Retrieval result: chunk text, source metadata, similarity score. -/
structure RetrievalResult where
  text : String
  source : String
  sim : Int
deriving Repr, DecidableEq

/-- Order on retrieval results: non-increasing similarity score. -/
def simGE (a b : RetrievalResult) : Prop :=
  b.sim ≤ a.sim

instance : DecidableRel simGE := fun a b => inferInstanceAs (Decidable (b.sim ≤ a.sim))

/-- Modelled from the spec: the external Chroma similarity search behind
the retriever (app script lines 48-50): score every entry of the
collection against the query vector, order by non-increasing similarity,
return the first k. -/
def similaritySearch (st : Store) (q : List Int) (k : Nat) : List RetrievalResult :=
  (List.insertionSort simGE
    (st.entries.map (fun e =>
      ({ text := e.text, source := e.source, sim := score q e } : RetrievalResult)))).take k

/-- Converts a retrieval result back to the Document shape the retriever
hands to the prompt-assembly step. -/
def docOfResult (r : RetrievalResult) : Document :=
  { pageContent := r.text, source := r.source, filePath := [] }

/-- Formats one retrieved document (app script line 71): its source
identifier on a line, then its page content. -/
def formatDoc (d : Document) : String :=
  ("Source: ") ++ d.source ++ ("\n") ++ d.pageContent

/-- Embeds the JavaScript Array.join: the pieces interleaved with the
separator. -/
def joinSep (sep : String) : List String → String
  | [] => ""
  | [a] => a
  | a :: b :: rest => a ++ sep ++ joinSep sep (b :: rest)

/-- Embeds the context computation of the RAG chain (app script lines
66-75): format every retrieved document and join with a blank line. -/
def contextOf (docs : List Document) : String :=
  joinSep ("\n\n") (docs.map formatDoc)

/-- Embeds the first step of the RunnableSequence (app script lines
64-77): the context slot and the question slot, the latter passed through
verbatim. -/
def buildSlots (question : String) (docs : List Document) : String × String :=
  (contextOf docs, question)

/-- Stated from the spec's words on the Prompt Assembler: the
concatenation of the retrieved chunk texts in retrieval order, each
preceded by its source identifier, joined by a blank-line separator. -/
def specContext : List Document → String
  | [] => ""
  | [d] => ("Source: ") ++ d.source ++ ("\n") ++ d.pageContent
  | d :: e :: rest =>
    (("Source: ") ++ d.source ++ ("\n") ++ d.pageContent) ++ ("\n\n") ++ specContext (e :: rest)

/-- One piece of a prompt template: a literal, or a named slot. -/
inductive TemplatePart where
  | lit (s : String)
  | slot (name : String)
deriving Repr, DecidableEq

/-- Errors of the query pipeline.  Rendering a template fails when a slot
has no value (the langchain PromptTemplate behavior); the code defines no
other assembler failure. -/
inductive RagError where
  | missingVariable (name : String)
deriving Repr, DecidableEq

/-- Renders a template by substituting each slot from the lookup,
concatenating in order; fails on a slot the lookup does not provide. -/
def renderTemplate (lookup : String → Option String) : List TemplatePart → Except RagError String
  | [] => Except.ok ""
  | p :: rest => do
    let s ← match p with
      | TemplatePart.lit t => Except.ok t
      | TemplatePart.slot n =>
        match lookup n with
        | some v => Except.ok v
        | none => Except.error (RagError.missingVariable n)
    let r ← renderTemplate lookup rest
    Except.ok (s ++ r)

/-- The prompt template of the code (both entry points, the template
literal passed to PromptTemplate.fromTemplate), split at its two slots. -/
def ragTemplate : List TemplatePart :=
  [ TemplatePart.lit ("\n      Answer the question based on the following context:\n      \n      Context: "),
    TemplatePart.slot ("context"),
    TemplatePart.lit ("\n      \n      Question: "),
    TemplatePart.slot ("question"),
    TemplatePart.lit ("\n      \n      Answer:\n    ") ]

/-- Slot values provided by the chain's first step: context and the
verbatim question. -/
def slotLookup (question : String) (docs : List Document) : String → Option String :=
  fun n =>
    if n = ("context") then some (contextOf docs)
    else if n = ("question") then some question
    else none

/-- The Prompt Assembler of the query pipeline: renders the template over
the two slots built from the retrieved documents and the question. -/
def assemblePrompt (question : String) (docs : List Document) : Except RagError String :=
  renderTemplate (slotLookup question docs) ragTemplate

/-- Errors of the ingestion pipeline, naming the failing stage. -/
inductive IngestError where
  | embeddingService (msg : String)
deriving Repr, DecidableEq

/-- Modelled from the spec: the external embedding service call made
inside Chroma.fromDocuments embeds every chunk text in order and fails
if the service fails on any text. -/
def embedAll (embed : String → Except String (List Int)) :
    List String → Except String (List (List Int))
  | [] => Except.ok []
  | t :: ts => do
    let v ← embed t
    let vs ← embedAll embed ts
    Except.ok (v :: vs)

/-- Embeds setupRag's ingestion (install.ts lines 143-161), with the
external Chroma.fromDocuments modelled from the spec: all chunk texts are
embedded before anything is written; only if every embedding succeeds are
the entries added to the collection.  On an embedding failure the error is
reported (the catch block rethrows it) and the store is left untouched.
Returns the outcome together with the store after the run. -/
def runIngestion (embed : String → Except String (List Int))
    (chunks : List Document) (st : Store) : Except IngestError Unit × Store :=
  match embedAll embed (chunks.map (fun d => d.pageContent)) with
  | Except.error m => (Except.error (IngestError.embeddingService m), st)
  | Except.ok vecs => (Except.ok (), addEntries st (chunks.zip vecs))

/-- The vector store adapter's read operation as a state-passing step:
result plus the store after the call (a read leaves it as it was). -/
def similaritySearchOp (st : Store) (q : List Int) (k : Nat) :
    List RetrievalResult × Store :=
  (similaritySearch st q k, st)

/-- One query through the query pipeline (app script queryRag plus the
RAG chain): embed the question, read the store, assemble the prompt,
invoke the language model.  The store each step leaves behind is threaded
explicitly; llm stands for the external Ollama model. -/
def runQuery (embedQ : String → List Int) (llm : String → String)
    (st : Store) (q : String) : Store × Except RagError String :=
  let searchOut := similaritySearchOp st (embedQ q) RETRIEVAL_K
  let docs := searchOut.1.map docOfResult
  (searchOut.2, (assemblePrompt q docs).map llm)

/-- The app script's main: runs the example questions in sequence through
queryRag, aborting on the first error.  Returns the final store and the
answers. -/
def runQueries (embedQ : String → List Int) (llm : String → String)
    (st : Store) : List String → Store × Except RagError (List String)
  | [] => (st, Except.ok [])
  | q :: rest =>
    match runQuery embedQ llm st q with
    | (st1, Except.error e) => (st1, Except.error e)
    | (st1, Except.ok a) =>
      match runQueries embedQ llm st1 rest with
      | (st2, Except.error e) => (st2, Except.error e)
      | (st2, Except.ok answers) => (st2, Except.ok (a :: answers))

/-- The empty collection. -/
def emptyStore : Store :=
  { entries := [], nextId := 0 }

/-- Concrete document used by witnesses. -/
def docW : Document :=
  { pageContent := "abcdefghijkl", source := "alice.md", filePath := ["book", "alice.md"] }

/-- Concrete infallible embedding used by witnesses. -/
def embedW : String → List Int :=
  fun s => [Int.ofNat s.length]

/-- Concrete failing embedding service used by witnesses. -/
def failEmbed : String → Except String (List Int) :=
  fun _ => Except.error ("network")

/-- A document whose content is 5000 characters, longer than any usual
model input limit. -/
def bigDoc : Document :=
  { pageContent := String.mk (List.replicate 5000 ('a')),
    source := "big.md", filePath := ["book", "big.md"] }

/-! Theorems. -/

lemma chunkAux_tail_reconstruct (maxSize overlap : Nat) (hov : overlap ≤ maxSize) :
    ∀ fuel s, ((chunkAux maxSize overlap fuel s).map (fun k => k.drop overlap)).flatten
      = s.drop overlap
  | 0, s => by simp [chunkAux]
  | fuel + 1, s => by
    by_cases hs : s.length ≤ maxSize
    · simp [chunkAux, hs]
    · rw [chunkAux, if_neg hs, List.map_cons, List.flatten_cons,
        chunkAux_tail_reconstruct maxSize overlap hov fuel, List.drop_take, List.drop_drop]
      have h1 : maxSize - overlap + overlap = maxSize := by omega
      rw [h1]
      have h2 : List.drop maxSize s = List.drop (maxSize - overlap) (List.drop overlap s) := by
        rw [List.drop_drop]
        congr 1
        omega
      rw [h2, List.take_append_drop]

lemma chunkAux_reconstruct (maxSize overlap : Nat) (hov : overlap ≤ maxSize) :
    ∀ fuel s, reconstruct overlap (chunkAux maxSize overlap fuel s) = s
  | 0, s => by simp [chunkAux, reconstruct]
  | fuel + 1, s => by
    by_cases hs : s.length ≤ maxSize
    · simp [chunkAux, hs, reconstruct]
    · rw [chunkAux, if_neg hs]
      simp only [reconstruct]
      rw [chunkAux_tail_reconstruct maxSize overlap hov fuel, List.drop_drop]
      have h1 : maxSize - overlap + overlap = maxSize := by omega
      rw [h1, List.take_append_drop]

/-- C4: for every Document (and any maximum size and overlap respecting the
spec invariant overlap < maxSize), concatenating the Chunker's output
chunks in order with the overlapping portions removed reconstructs the
Document's original content exactly. -/
theorem chunker_reconstructs (maxSize overlap : Nat) (d : Document)
    (h : overlap < maxSize) :
    reconstruct overlap (chunkContent maxSize overlap d.pageContent.data)
      = d.pageContent.data := by
  unfold chunkContent
  exact chunkAux_reconstruct maxSize overlap (Nat.le_of_lt h) _ _

/-- C4 witness: the theorem applied to a concrete document with maximum
size 5 and overlap 2. -/
theorem chunker_reconstructs_witness :
    2 < 5 ∧ reconstruct 2 (chunkContent 5 2 docW.pageContent.data)
      = docW.pageContent.data :=
  ⟨by decide, chunker_reconstructs 5 2 docW (by decide)⟩

lemma chunkAux_size (maxSize overlap : Nat) (h : overlap < maxSize) :
    ∀ fuel s, s.length ≤ fuel + maxSize →
      ∀ c ∈ chunkAux maxSize overlap fuel s, c.length ≤ maxSize
  | 0, s, hb, c, hc => by
    simp only [chunkAux, List.mem_singleton] at hc
    subst hc
    simpa using hb
  | fuel + 1, s, hb, c, hc => by
    by_cases hs : s.length ≤ maxSize
    · simp only [chunkAux, hs, if_true, List.mem_singleton] at hc
      subst hc
      exact hs
    · rw [chunkAux, if_neg hs] at hc
      rcases List.mem_cons.mp hc with rfl | hc2
      · simp only [List.length_take]
        omega
      · refine chunkAux_size maxSize overlap h fuel _ ?_ c hc2
        simp only [List.length_drop]
        omega

/-- C5: for every Document and every configured maximum size with
overlap < maxSize (so for any maximum ≥ 1), no chunk produced by the
Chunker exceeds the maximum size. -/
theorem chunker_size_bound (maxSize overlap : Nat) (d : Document)
    (h : overlap < maxSize) :
    ∀ c ∈ chunkContent maxSize overlap d.pageContent.data, c.length ≤ maxSize := by
  unfold chunkContent
  exact chunkAux_size maxSize overlap h d.pageContent.data.length d.pageContent.data
    (Nat.le_add_right _ _)

/-- C5 witness: the theorem applied to a concrete document at the
configured values of install.ts, CHUNK_SIZE 1000 and CHUNK_OVERLAP 200. -/
theorem chunker_size_bound_witness :
    CHUNK_OVERLAP < CHUNK_SIZE ∧
      ∀ c ∈ chunkContent CHUNK_SIZE CHUNK_OVERLAP docW.pageContent.data,
        c.length ≤ CHUNK_SIZE :=
  ⟨by decide, chunker_size_bound CHUNK_SIZE CHUNK_OVERLAP docW (by decide)⟩

/-- C8: the loader produces exactly one Document per directory entry whose
name ends in .md, in order, with source equal to the file's base name,
filePath equal to the directory joined with the name, and content read
from that path; entries not ending in .md produce no Document. -/
theorem loader_one_document_per_md (dir : List String) (entries : List String)
    (readFile : List String → String) :
    processMarkdownFiles dir entries readFile
      = (entries.filter (fun f => f.endsWith (".md"))).map (fun f =>
          { pageContent := readFile (pathJoin dir f), source := f,
            filePath := pathJoin dir f }) := by
  unfold processMarkdownFiles
  rw [List.map_map]
  refine List.map_congr_left (fun f hf => ?_)
  simp [Function.comp, pathJoin, pathBasename, List.getLastD_concat]

/-- C1 counterexample: writing the single concrete chunk docW to the empty
collection and then writing the same chunk set again leaves two entries,
not one: the second write changes the entry count, so write is not
idempotent. -/
theorem write_idempotent_counterexample :
    ¬ ((writeChunks embedW (writeChunks embedW emptyStore [docW]) [docW]).entries.length
        = (writeChunks embedW emptyStore [docW]).entries.length) := by
  decide

/-- C1 amended: re-running ingestion with an unchanged chunk set is not
idempotent; each write appends one fresh-identifier entry per chunk, so
the entry count after the second write exceeds the count after the first
by the number of chunks. -/
theorem write_appends_each_time (embed : String → List Int) (st : Store)
    (chunks : List Document) :
    (writeChunks embed (writeChunks embed st chunks) chunks).entries.length
      = (writeChunks embed st chunks).entries.length + chunks.length := by
  simp [writeChunks, addEntries]
  omega

/-- C2: for every store, query vector and k (k = 5 in the program), the
retrieval returns at most k results, ordered by non-increasing similarity
score. -/
theorem query_at_most_k_and_sorted (st : Store) (q : List Int) (k : Nat) :
    (similaritySearch st q k).length ≤ k ∧
      List.Sorted simGE (similaritySearch st q k) := by
  constructor
  · exact List.length_take_le k _
  · haveI : IsTotal RetrievalResult simGE := ⟨fun a b => le_total b.sim a.sim⟩
    haveI : IsTrans RetrievalResult simGE := ⟨fun a b c h1 h2 => le_trans h2 h1⟩
    exact List.Pairwise.sublist (List.take_sublist _ _)
      (List.sorted_insertionSort simGE _)

lemma contextOf_eq_specContext : ∀ docs, contextOf docs = specContext docs
  | [] => rfl
  | [d] => rfl
  | d :: e :: rest => by
    have ih := contextOf_eq_specContext (e :: rest)
    simp only [contextOf, List.map_cons] at ih
    simp only [contextOf, List.map_cons, joinSep, specContext]
    rw [ih]
    rfl

/-- C3: the slots built by the chain's first step give the context slot
equal to the spec-worded rendering (the retrieved chunk texts in retrieval
order, each preceded by its source identifier, joined by a blank-line
separator) and the question slot equal to the question verbatim. -/
theorem prompt_slots (q : String) (docs : List Document) :
    buildSlots q docs = (specContext docs, q) := by
  unfold buildSlots
  rw [contextOf_eq_specContext]

/-- C6 counterexample: with one 5000-character retrieved document the
concatenated context exceeds 4096 characters, beyond the usual model
input limit, yet the Prompt Assembler succeeds rather than failing: the
code performs no size check and has no context-too-large error. -/
theorem assembler_oversize_counterexample :
    4096 < (contextOf [bigDoc]).length ∧
      (assemblePrompt ("q") [bigDoc]).isOk = true := by
  constructor
  · have h : contextOf [bigDoc]
        = String.mk (((("Source: ").data ++ ("big.md").data) ++ ("\n").data)
            ++ List.replicate 5000 ('a')) := rfl
    rw [h, String.mk_length]
    simp only [List.length_append, List.length_replicate]
    decide
  · rfl

/-- C6 amended: the Prompt Assembler performs no size check: for every
question and retrieved document list, whatever the context length,
rendering succeeds, and the rendered prompt carries the full concatenated
context and the verbatim question, untruncated and in order. -/
theorem assembler_never_fails (q : String) (docs : List Document) :
    assemblePrompt q docs
      = Except.ok (("\n      Answer the question based on the following context:\n      \n      Context: ")
          ++ (contextOf docs
          ++ (("\n      \n      Question: ")
          ++ (q
          ++ (("\n      \n      Answer:\n    ")
          ++ ""))))) := by
  rfl

/-- C7: if the embedding service fails during ingestion, the run reports
an embedding-service error naming the failing stage and the vector store
is left exactly as it was before the run: no partial write. -/
theorem ingestion_no_partial_write (embed : String → Except String (List Int))
    (chunks : List Document) (st : Store) (m : String)
    (h : embedAll embed (chunks.map (fun d => d.pageContent)) = Except.error m) :
    runIngestion embed chunks st
      = (Except.error (IngestError.embeddingService m), st) := by
  simp [runIngestion, h]

/-- C7 witness: a concrete failing embedding service, one chunk, and the
empty store. -/
theorem ingestion_no_partial_write_witness :
    embedAll failEmbed ([docW].map (fun d => d.pageContent)) = Except.error ("network") ∧
      runIngestion failEmbed [docW] emptyStore
        = (Except.error (IngestError.embeddingService ("network")), emptyStore) :=
  ⟨rfl, ingestion_no_partial_write failEmbed [docW] emptyStore ("network") rfl⟩

/-- C9: querying the empty collection returns zero retrieval results, and
on those results the Prompt Assembler renders the empty context slot and
succeeds without an error. -/
theorem empty_collection_query (q : String) (v : List Int) (k : Nat) :
    similaritySearch emptyStore v k = [] ∧
      (buildSlots q ((similaritySearch emptyStore v k).map docOfResult)).1 = ("") ∧
      (assemblePrompt q ((similaritySearch emptyStore v k).map docOfResult)).isOk = true := by
  have h0 : similaritySearch emptyStore v k = [] := by
    simp [similaritySearch, emptyStore]
  refine ⟨h0, ?_, ?_⟩
  · rw [h0]
    rfl
  · rw [h0]
    rfl

/-- C10: the query pipeline never modifies the vector store: running any
sequence of questions through the query entry point returns the collection
exactly as it was before the run. -/
theorem query_pipeline_preserves_store (embedQ : String → List Int)
    (llm : String → String) : ∀ (qs : List String) (st : Store),
    (runQueries embedQ llm st qs).1 = st
  | [], _ => rfl
  | q :: rest, st => by
    rw [runQueries]
    have h1 : runQuery embedQ llm st q
        = (st, (assemblePrompt q
            ((similaritySearch st (embedQ q) RETRIEVAL_K).map docOfResult)).map llm) := rfl
    rw [h1]
    cases hp : (assemblePrompt q
        ((similaritySearch st (embedQ q) RETRIEVAL_K).map docOfResult)).map llm with
    | error e => rfl
    | ok a =>
      dsimp only
      have ih := query_pipeline_preserves_store embedQ llm rest st
      cases hq : runQueries embedQ llm st rest with
      | mk st2 res =>
        rw [hq] at ih
        cases res with
        | error e => simpa using ih
        | ok answers => simpa using ih

end RagSample
